import Mathlib

/-!
Verification of the element-assembly core of `src/c/fea_solver.c` (10-node
tetrahedral finite elements).  The C code is embedded shallowly over exact
rational arithmetic: `real` becomes `ℚ`, in-place matrix inversion becomes a
function returning the final matrix state together with the written
determinant and the success flag, and the possibly-NULL `shape_gradients*`
becomes an `Option`.  The floating-point comparison threshold of the `EQL`
macro (`FLT_MIN` / `DBL_MIN` depending on the active precision) is kept as an
abstract nonnegative parameter `eps`.
-/

set_option maxHeartbeats 1600000

namespace FeaSolver

/-- `DELTA(i,j)` from fea_solver.c: Kronecker delta. -/
def DELTA (i j : Fin 3) : ℚ := if i = j then 1 else 0

/-- `gauss_nodes4_tetr10` from fea_solver.c: the 4-point quadrature table,
rows laid out as `{weight, r, s, t}`. -/
def gauss_nodes4_tetr10 : ℕ → ℕ → ℚ := fun g c =>
  match g, c with
  | 0, 0 => (1/4)/6
  | 0, 1 => 0.58541020
  | 0, 2 => 0.13819660
  | 0, 3 => 0.13819660
  | 1, 0 => (1/4)/6
  | 1, 1 => 0.13819660
  | 1, 2 => 0.58541020
  | 1, 3 => 0.13819660
  | 2, 0 => (1/4)/6
  | 2, 1 => 0.13819660
  | 2, 2 => 0.13819660
  | 2, 3 => 0.58541020
  | 3, 0 => (1/4)/6
  | 3, 1 => 0.13819660
  | 3, 2 => 0.13819660
  | 3, 3 => 0.13819660
  | _, _ => 0

/-- `gauss_nodes5_tetr10` from fea_solver.c: the 5-point quadrature table,
rows laid out as `{weight, r, s, t}`. -/
def gauss_nodes5_tetr10 : ℕ → ℕ → ℚ := fun g c =>
  match g, c with
  | 0, 0 => (-4/5)/6
  | 0, 1 => 1/4
  | 0, 2 => 1/4
  | 0, 3 => 1/4
  | 1, 0 => (9/20)/6
  | 1, 1 => 1/2
  | 1, 2 => 1/6
  | 1, 3 => 1/6
  | 2, 0 => (9/20)/6
  | 2, 1 => 1/6
  | 2, 2 => 1/2
  | 2, 3 => 1/6
  | 3, 0 => (9/20)/6
  | 3, 1 => 1/6
  | 3, 2 => 1/6
  | 3, 3 => 1/2
  | 4, 0 => (9/20)/6
  | 4, 1 => 1/6
  | 4, 2 => 1/6
  | 4, 3 => 1/6
  | _, _ => 0

/-- `det3x3` from fea_solver.c: closed-form cofactor expansion of the
determinant of a 3x3 matrix. -/
def det3x3 (m : Fin 3 → Fin 3 → ℚ) : ℚ :=
  m 0 0 * (m 1 1 * m 2 2 - m 1 2 * m 2 1)
    - m 0 1 * (m 1 0 * m 2 2 - m 1 2 * m 2 0)
    + m 0 2 * (m 1 0 * m 2 1 - m 1 1 * m 2 0)

/-- The `EQL(x,y)` comparison from fea_solver.c, `fabs(x-y) <= eps` where the
source uses `FLT_MIN`/`DBL_MIN` for `eps` depending on the active precision. -/
def EQL (eps x y : ℚ) : Bool := decide (|x - y| ≤ eps)

/-- `inv3x3` from fea_solver.c.  The C function computes the determinant,
returns `FALSE` when `EQL(det, 0)` holds, and otherwise computes all nine
cofactor entries into locals before overwriting the input in place.  The
embedding returns `(final matrix contents, written determinant, success)`. -/
def inv3x3 (eps : ℚ) (m : Fin 3 → Fin 3 → ℚ) :
    (Fin 3 → Fin 3 → ℚ) × ℚ × Bool :=
  let det := det3x3 m
  if EQL eps det 0 then (m, det, false)
  else
    let m00 := (m 1 1 * m 2 2 - m 1 2 * m 2 1) / det
    let m01 := (m 0 2 * m 2 1 - m 0 1 * m 2 2) / det
    let m02 := (m 0 1 * m 1 2 - m 0 2 * m 1 1) / det
    let m10 := (m 1 2 * m 2 0 - m 1 0 * m 2 2) / det
    let m11 := (m 0 0 * m 2 2 - m 0 2 * m 2 0) / det
    let m12 := (m 0 2 * m 1 0 - m 0 0 * m 1 2) / det
    let m20 := (m 1 0 * m 2 1 - m 1 1 * m 2 0) / det
    let m21 := (m 0 1 * m 2 0 - m 0 0 * m 2 1) / det
    let m22 := (m 0 0 * m 1 1 - m 0 1 * m 1 0) / det
    (![![m00, m01, m02], ![m10, m11, m12], ![m20, m21, m22]], det, true)

/-- 3x3 matrix product (row-by-column), used to state what a valid inverse is. -/
def matMul3 (a b : Fin 3 → Fin 3 → ℚ) : Fin 3 → Fin 3 → ℚ :=
  fun i j => ∑ k : Fin 3, a i k * b k j

/-- The 3x3 identity matrix. -/
def id3 : Fin 3 → Fin 3 → ℚ := fun i j => if i = j then 1 else 0

/-- `tetrahedra10_isoform` from fea_solver.c: shape function values of the
10-node tetrahedron (Dhondt's tetrahedral shape set). -/
def tetrahedra10_isoform (i : ℕ) (r s t : ℚ) : ℚ :=
  match i with
  | 0 => (2*(1-r-s-t)-1)*(1-r-s-t)
  | 1 => (2*r-1)*r
  | 2 => (2*s-1)*s
  | 3 => (2*t-1)*t
  | 4 => 4*r*(1-r-s-t)
  | 5 => 4*r*s
  | 6 => 4*s*(1-r-s-t)
  | 7 => 4*t*(1-r-s-t)
  | 8 => 4*r*t
  | 9 => 4*s*t
  | _ => 0

/-- `tetrahedra10_df_dr` from fea_solver.c: derivative with respect to `r`. -/
def tetrahedra10_df_dr (i : ℕ) (r s t : ℚ) : ℚ :=
  match i with
  | 0 => 4*t+4*s+4*r-3
  | 1 => 4*r-1
  | 2 => 0
  | 3 => 0
  | 4 => -4*t-4*s-8*r+4
  | 5 => 4*s
  | 6 => -4*s
  | 7 => -4*t
  | 8 => 4*t
  | 9 => 0
  | _ => 0

/-- `tetrahedra10_df_ds` from fea_solver.c: derivative with respect to `s`. -/
def tetrahedra10_df_ds (i : ℕ) (r s t : ℚ) : ℚ :=
  match i with
  | 0 => 4*t+4*s+4*r-3
  | 1 => 0
  | 2 => 4*s-1
  | 3 => 0
  | 4 => -4*r
  | 5 => 4*r
  | 6 => -4*t-8*s-4*r+4
  | 7 => -4*t
  | 8 => 0
  | 9 => 4*t
  | _ => 0

/-- `tetrahedra10_df_dt` from fea_solver.c: derivative with respect to `t`. -/
def tetrahedra10_df_dt (i : ℕ) (r s t : ℚ) : ℚ :=
  match i with
  | 0 => 4*t+4*s+4*r-3
  | 1 => 0
  | 2 => 0
  | 3 => 4*t-1
  | 4 => -4*r
  | 5 => 0
  | 6 => -4*s
  | 7 => -8*t-4*s-4*r+4
  | 8 => 4*r
  | 9 => 4*s
  | _ => 0

/-- `tetrahedra10_disoform` from fea_solver.c: dispatch of the local
derivative of a shape function by derivative axis. -/
def tetrahedra10_disoform (i : ℕ) (axis : ℕ) (r s t : ℚ) : ℚ :=
  match axis with
  | 0 => tetrahedra10_df_dr i r s t
  | 1 => tetrahedra10_df_ds i r s t
  | 2 => tetrahedra10_df_dt i r s t
  | _ => 0

/-- `solver_ctensor` from fea_solver.c: the isotropic linear-elastic rank-4
tensor built from `parameters[0]` (lambda) and `parameters[1]` (mu).  The
`graddef` argument is accepted, as in the C signature, but never read. -/
def solver_ctensor (parameters : ℕ → ℚ) (graddef : Fin 3 → Fin 3 → ℚ) :
    Fin 3 → Fin 3 → Fin 3 → Fin 3 → ℚ :=
  fun i j k l =>
    parameters 0 * DELTA i j * DELTA k l
      + parameters 1 * DELTA i k * DELTA j l
      + parameters 1 * DELTA i l * DELTA j k

/-- `solver_create_element_params_tetrahedra10` from fea_solver.c.  The C
switch on `gauss_nodes_count` selects one of the two quadrature tables and has
no default arm: any other count leaves the previously stored
`gauss_nodes_data` pointer (uninitialized at solver construction, modelled as
the incoming `gauss_nodes_data` argument) untouched and returns normally. -/
def solver_create_element_params_tetrahedra10 (gauss_nodes_count : ℕ)
    (gauss_nodes_data : Option (ℕ → ℕ → ℚ)) : Option (ℕ → ℕ → ℚ) :=
  match gauss_nodes_count with
  | 4 => some gauss_nodes4_tetr10
  | 5 => some gauss_nodes5_tetr10
  | _ => gauss_nodes_data

/-- The in-memory data of a solver session (`fea_solver` from fea_solver.c
together with the tables it points to): node coordinates, element
connectivity, solution parameters, material parameters, and the element
database (per-gauss-point weight and local-derivative rows, filled by
`solver_new_gauss_node`).  `dof` is `MAX_DOF = 3` throughout, as fixed for
the only supported element type. -/
structure FEASolver where
  nodes : ℕ → Fin 3 → ℚ
  elements : ℕ → ℕ → ℕ
  nodes_per_element : ℕ
  gauss_nodes_count : ℕ
  parameters : ℕ → ℚ
  gweight : ℕ → ℚ
  dforms : ℕ → Fin 3 → ℕ → ℚ

/-- `solver_node_dof` from fea_solver.c: component `dof` of the node referenced
by local index `node` of element `element`. -/
def solver_node_dof (S : FEASolver) (element node : ℕ) (dof : Fin 3) : ℚ :=
  S.nodes (S.elements element node) dof

/-- The element-database fill performed by `solver_new_gauss_node` for
TETRAHEDRA10: `dforms[axis][node] = dshape(node, axis, r, s, t)` where
`(r,s,t)` are columns 1..3 of the active quadrature table row. -/
def tetra10_db_dforms (table : ℕ → ℕ → ℚ) : ℕ → Fin 3 → ℕ → ℚ :=
  fun gauss axis node =>
    tetrahedra10_disoform node axis.val (table gauss 1) (table gauss 2) (table gauss 3)

/-- The Jacobi matrix accumulated by `solver_new_shape_gradients`:
`J[i][j] = sum over local nodes k of dforms[i][k] * node_dof(element,k,j)`. -/
def solver_jacobi (S : FEASolver) (element gauss : ℕ) : Fin 3 → Fin 3 → ℚ :=
  fun i j => ∑ k ∈ Finset.range S.nodes_per_element,
    S.dforms gauss i k * solver_node_dof S element k j

/-- The `shape_gradients` record from fea_solver.c: global-coordinate
derivatives of the shape functions (dof x nodes_per_element) and the
determinant of the Jacobi matrix. -/
structure ShapeGradients where
  grad : Fin 3 → ℕ → ℚ
  detJ : ℚ

/-- `solver_new_shape_gradients` from fea_solver.c: builds the Jacobi matrix,
inverts it in place via `inv3x3`, and on success returns the gradients
`grad[i][j] = sum over k of Jinv[i][k] * dforms[k][j]` together with the
determinant written by `inv3x3`; on inversion failure it returns the NULL
pointer, modelled as `none`. -/
def solver_new_shape_gradients (eps : ℚ) (S : FEASolver) (element gauss : ℕ) :
    Option ShapeGradients :=
  let r := inv3x3 eps (solver_jacobi S element gauss)
  if r.2.2 then
    some { grad := fun i j => ∑ k : Fin 3, r.1 i k * S.dforms gauss k j,
           detJ := r.2.1 }
  else none

/-- `solver_free_shape_gradients` from fea_solver.c: the destructor reads
`grads->grad` unconditionally, so calling it on the NULL pointer (the failed
case of `solver_new_shape_gradients`) dereferences NULL; the crash is
modelled as `none`. -/
def solver_free_shape_gradients (grads : Option ShapeGradients) : Option Unit :=
  match grads with
  | none => none
  | some _ => some ()

/-- Residue class of a local-stiffness row or column index modulo `dof = 3`,
recovering the degree-of-freedom part of `I = a*dof + i`. -/
def fin3mod (n : ℕ) : Fin 3 := ⟨n % 3, by omega⟩

/-- One quadrature point's contribution to entry `(I, J)` of the local
stiffness matrix, as accumulated by the innermost loops of
`solver_local_stiffness`: with `a = I/3`, `i = I%3`, `b = J/3`, `j = J%3`,
the value `(sum over k,l of grad[k][a]*C[i][k][j][l]*grad[l][b]) * |detJ| *
weight`. -/
def stiffContrib (ctens : Fin 3 → Fin 3 → Fin 3 → Fin 3 → ℚ)
    (grads : ShapeGradients) (weight : ℚ) (I J : ℕ) : ℚ :=
  (∑ k : Fin 3, ∑ l : Fin 3,
      grads.grad k (I / 3) * ctens (fin3mod I) k (fin3mod J) l * grads.grad l (J / 3))
    * |grads.detJ| * weight

/-- The constitutive tensor obtained inside `solver_local_stiffness`: the
`graddef` argument passed to `solver_ctensor` is an uninitialized stack
array, modelled by the zero matrix (the builder never reads it). -/
def solver_ctens (S : FEASolver) : Fin 3 → Fin 3 → Fin 3 → Fin 3 → ℚ :=
  solver_ctensor S.parameters (fun _ _ => 0)

/-- The quadrature sum the assembler computes when every inversion succeeds:
entry `(I,J)` is the sum over gauss points of that point's `stiffContrib`,
with a failed point contributing zero. -/
def localStiffnessSum (eps : ℚ) (S : FEASolver) (element : ℕ) : ℕ → ℕ → ℚ :=
  fun I J => ∑ g ∈ Finset.range S.gauss_nodes_count,
    match solver_new_shape_gradients eps S element g with
    | none => 0
    | some grads => stiffContrib (solver_ctens S) grads (S.gweight g) I J

/-- One iteration of the gauss-node loop of `solver_local_stiffness`: compute
the shape gradients; if present, accumulate their contribution into the
stiffness matrix; then free the gradients unconditionally (which crashes,
i.e. yields `none`, when they are absent). -/
def stiffnessStep (eps : ℚ) (S : FEASolver) (element : ℕ)
    (acc : Option (ℕ → ℕ → ℚ)) (gauss : ℕ) : Option (ℕ → ℕ → ℚ) :=
  match acc with
  | none => none
  | some stiff =>
    let grads := solver_new_shape_gradients eps S element gauss
    let stiff' : ℕ → ℕ → ℚ :=
      match grads with
      | none => stiff
      | some gr => fun I J =>
          stiff I J + stiffContrib (solver_ctens S) gr (S.gweight gauss) I J
    match solver_free_shape_gradients grads with
    | none => none
    | some _ => some stiff'

/-- `solver_local_stiffness` from fea_solver.c: a zero-initialized
`(nodes_per_element*dof) x (nodes_per_element*dof)` matrix accumulated over
the gauss nodes in table order; `none` models the crash on any gauss node
whose Jacobi matrix could not be inverted (the NULL gradients are still
freed). -/
def solver_local_stiffness (eps : ℚ) (S : FEASolver) (element : ℕ) :
    Option (ℕ → ℕ → ℚ) :=
  (List.range S.gauss_nodes_count).foldl (stiffnessStep eps S element)
    (some (fun _ _ => 0))

/-! Helper lemmas about `inv3x3`. -/

lemma EQL_zero_iff (eps x : ℚ) : EQL eps x 0 = true ↔ |x| ≤ eps := by
  simp [EQL, sub_zero]

lemma inv3x3_flag (eps : ℚ) (m : Fin 3 → Fin 3 → ℚ) :
    (inv3x3 eps m).2.2 = !(EQL eps (det3x3 m) 0) := by
  by_cases hc : EQL eps (det3x3 m) 0 <;> simp [inv3x3, hc]

lemma inv3x3_det (eps : ℚ) (m : Fin 3 → Fin 3 → ℚ) :
    (inv3x3 eps m).2.1 = det3x3 m := by
  by_cases hc : EQL eps (det3x3 m) 0 <;> simp [inv3x3, hc]

lemma inv3x3_fail_iff (eps : ℚ) (m : Fin 3 → Fin 3 → ℚ) :
    (inv3x3 eps m).2.2 = false ↔ |det3x3 m| ≤ eps := by
  rw [inv3x3_flag, ← EQL_zero_iff eps (det3x3 m)]
  simp

lemma inv3x3_fail_eq (eps : ℚ) (m : Fin 3 → Fin 3 → ℚ)
    (h : (inv3x3 eps m).2.2 = false) : (inv3x3 eps m).1 = m := by
  rw [inv3x3_flag] at h
  simp only [Bool.not_eq_false'] at h
  simp [inv3x3, h]

lemma inv3x3_success_eq (eps : ℚ) (m : Fin 3 → Fin 3 → ℚ)
    (h : (inv3x3 eps m).2.2 = true) :
    (inv3x3 eps m).1 =
      ![![(m 1 1 * m 2 2 - m 1 2 * m 2 1) / det3x3 m,
          (m 0 2 * m 2 1 - m 0 1 * m 2 2) / det3x3 m,
          (m 0 1 * m 1 2 - m 0 2 * m 1 1) / det3x3 m],
        ![(m 1 2 * m 2 0 - m 1 0 * m 2 2) / det3x3 m,
          (m 0 0 * m 2 2 - m 0 2 * m 2 0) / det3x3 m,
          (m 0 2 * m 1 0 - m 0 0 * m 1 2) / det3x3 m],
        ![(m 1 0 * m 2 1 - m 1 1 * m 2 0) / det3x3 m,
          (m 0 1 * m 2 0 - m 0 0 * m 2 1) / det3x3 m,
          (m 0 0 * m 1 1 - m 0 1 * m 1 0) / det3x3 m]] := by
  rw [inv3x3_flag] at h
  simp only [Bool.not_eq_true'] at h
  simp [inv3x3, h]

lemma inv3x3_success_det_ne (eps : ℚ) (heps : 0 ≤ eps) (m : Fin 3 → Fin 3 → ℚ)
    (h : (inv3x3 eps m).2.2 = true) : det3x3 m ≠ 0 := by
  intro h0
  have hf : (inv3x3 eps m).2.2 = false := by
    rw [inv3x3_fail_iff, h0]
    simpa using heps
  rw [h] at hf
  exact absurd hf (by simp)

lemma inv3x3_success_inv (eps : ℚ) (heps : 0 ≤ eps) (m : Fin 3 → Fin 3 → ℚ)
    (h : (inv3x3 eps m).2.2 = true) :
    matMul3 m (inv3x3 eps m).1 = id3 := by
  have hd : det3x3 m ≠ 0 := inv3x3_success_det_ne eps heps m h
  have he := inv3x3_success_eq eps m h
  funext i j
  rw [matMul3, he]
  unfold det3x3 at hd
  fin_cases i <;> fin_cases j <;>
    · simp [id3, Fin.sum_univ_three, det3x3]
      field_simp
      ring

/-- C3: `inv3x3` reports failure exactly when the absolute determinant is at
or below the comparison threshold `eps` of the active precision; on failure
the matrix state is returned completely unchanged; on success the returned
matrix is a valid inverse of the input (their product is the identity in
exact arithmetic) and the written determinant is the determinant of the
input. -/
theorem inv3x3_contract (eps : ℚ) (heps : 0 ≤ eps) (m : Fin 3 → Fin 3 → ℚ) :
    ((inv3x3 eps m).2.2 = false ↔ |det3x3 m| ≤ eps)
    ∧ ((inv3x3 eps m).2.2 = false → (inv3x3 eps m).1 = m)
    ∧ ((inv3x3 eps m).2.2 = true →
        matMul3 m (inv3x3 eps m).1 = id3 ∧ (inv3x3 eps m).2.1 = det3x3 m) :=
  ⟨inv3x3_fail_iff eps m, inv3x3_fail_eq eps m,
   fun h => ⟨inv3x3_success_inv eps heps m h, inv3x3_det eps m⟩⟩

/-- Witness for C3 at `eps = 0` and the identity matrix. -/
theorem inv3x3_contract_witness :
    (0 : ℚ) ≤ 0
    ∧ (((inv3x3 0 id3).2.2 = false ↔ |det3x3 id3| ≤ 0)
        ∧ ((inv3x3 0 id3).2.2 = false → (inv3x3 0 id3).1 = id3)
        ∧ ((inv3x3 0 id3).2.2 = true →
            matMul3 id3 (inv3x3 0 id3).1 = id3 ∧ (inv3x3 0 id3).2.1 = det3x3 id3)) :=
  ⟨le_refl 0, inv3x3_contract 0 (le_refl 0) id3⟩

/-- C5: `solver_ctensor` produces the isotropic linear-elastic tensor
`lambda*d(i,j)*d(k,l) + mu*d(i,k)*d(j,l) + mu*d(i,l)*d(j,k)` from the first
two material parameters, independently of the deformation-gradient argument
and of every parameter beyond the first two. -/
theorem ctensor_isotropic :
    (∀ p : ℕ → ℚ, ∀ g : Fin 3 → Fin 3 → ℚ, ∀ i j k l : Fin 3,
        solver_ctensor p g i j k l
          = p 0 * DELTA i j * DELTA k l + p 1 * DELTA i k * DELTA j l
              + p 1 * DELTA i l * DELTA j k)
    ∧ (∀ p : ℕ → ℚ, ∀ g g' : Fin 3 → Fin 3 → ℚ,
        solver_ctensor p g = solver_ctensor p g')
    ∧ (∀ p q : ℕ → ℚ, ∀ g : Fin 3 → Fin 3 → ℚ,
        p 0 = q 0 → p 1 = q 1 → solver_ctensor p g = solver_ctensor q g) := by
  refine ⟨fun p g i j k l => rfl, fun p g g' => rfl, fun p q g h0 h1 => ?_⟩
  funext i j k l
  simp [solver_ctensor, h0, h1]

/-- Witness for C5: two parameter lists agreeing on the first two entries but
differing beyond give identical tensors. -/
theorem ctensor_isotropic_witness :
    solver_ctensor (fun _ => 100) (fun _ _ => 0)
      = solver_ctensor (fun n => if n = 0 then 100 else if n = 1 then 100 else 7)
          (fun _ _ => 0) :=
  ctensor_isotropic.2.2 _ _ _ rfl rfl

/-- C8: for each quadrature table the stored weights sum exactly to `1/6` in
the exact rational arithmetic of the literal constants; the 4-point rows are
the stated weights with barycentric coordinates permuting
`{0.58541020, 0.13819660, 0.13819660, 0.13819660}`; the 5-point rows are the
stated centre point plus the four permutations of `{1/2, 1/6, 1/6}`. -/
theorem quadrature_tables :
    ((∑ g ∈ Finset.range 4, gauss_nodes4_tetr10 g 0) = 1/6)
    ∧ ((∑ g ∈ Finset.range 5, gauss_nodes5_tetr10 g 0) = 1/6)
    ∧ ((List.range 4).map (fun g =>
          (gauss_nodes4_tetr10 g 0, gauss_nodes4_tetr10 g 1,
           gauss_nodes4_tetr10 g 2, gauss_nodes4_tetr10 g 3))
        = [((1/4)/6, 0.58541020, 0.13819660, 0.13819660),
           ((1/4)/6, 0.13819660, 0.58541020, 0.13819660),
           ((1/4)/6, 0.13819660, 0.13819660, 0.58541020),
           ((1/4)/6, 0.13819660, 0.13819660, 0.13819660)])
    ∧ ((List.range 5).map (fun g =>
          (gauss_nodes5_tetr10 g 0, gauss_nodes5_tetr10 g 1,
           gauss_nodes5_tetr10 g 2, gauss_nodes5_tetr10 g 3))
        = [((-4/5)/6, 1/4, 1/4, 1/4),
           ((9/20)/6, 1/2, 1/6, 1/6),
           ((9/20)/6, 1/6, 1/2, 1/6),
           ((9/20)/6, 1/6, 1/6, 1/2),
           ((9/20)/6, 1/6, 1/6, 1/6)])
    ∧ (1 - gauss_nodes4_tetr10 0 1 - gauss_nodes4_tetr10 0 2
         - gauss_nodes4_tetr10 0 3 = 0.13819660)
    ∧ (1 - gauss_nodes4_tetr10 1 1 - gauss_nodes4_tetr10 1 2
         - gauss_nodes4_tetr10 1 3 = 0.13819660)
    ∧ (1 - gauss_nodes4_tetr10 2 1 - gauss_nodes4_tetr10 2 2
         - gauss_nodes4_tetr10 2 3 = 0.13819660)
    ∧ (1 - gauss_nodes4_tetr10 3 1 - gauss_nodes4_tetr10 3 2
         - gauss_nodes4_tetr10 3 3 = 0.58541020)
    ∧ (1 - gauss_nodes5_tetr10 0 1 - gauss_nodes5_tetr10 0 2
         - gauss_nodes5_tetr10 0 3 = 1/4)
    ∧ (1 - gauss_nodes5_tetr10 4 1 - gauss_nodes5_tetr10 4 2
         - gauss_nodes5_tetr10 4 3 = 1/2) := by
  refine ⟨?_, ?_, rfl, rfl, ?_, ?_, ?_, ?_, ?_, ?_⟩ <;>
    norm_num [Finset.sum_range_succ, gauss_nodes4_tetr10, gauss_nodes5_tetr10]

/-- C9 (refuting evidence): the `switch` of
`solver_create_element_params_tetrahedra10` has no default arm, so for an
unsupported `gauss_nodes_count` such as 3 or 0 it returns normally with no
quadrature table selected instead of failing fast; counts 4 and 5 select
their tables. -/
theorem unsupported_gauss_count_not_rejected :
    solver_create_element_params_tetrahedra10 3 none = none
    ∧ solver_create_element_params_tetrahedra10 0 none = none
    ∧ solver_create_element_params_tetrahedra10 4 none = some gauss_nodes4_tetr10
    ∧ solver_create_element_params_tetrahedra10 5 none = some gauss_nodes5_tetr10 :=
  ⟨rfl, rfl, rfl, rfl⟩

/-- C10: the ten shape functions of the 10-node tetrahedron form a partition
of unity, and consequently each axis's local derivatives sum to zero. -/
theorem shape_partition_of_unity :
    ∀ r s t : ℚ,
      ((∑ i ∈ Finset.range 10, tetrahedra10_isoform i r s t) = 1)
      ∧ ∀ axis : Fin 3,
          (∑ i ∈ Finset.range 10, tetrahedra10_disoform i axis.val r s t) = 0 := by
  intro r s t
  constructor
  · simp only [Finset.sum_range_succ, Finset.sum_range_zero, tetrahedra10_isoform]
    ring
  · intro axis
    fin_cases axis <;>
      · simp only [Finset.sum_range_succ, Finset.sum_range_zero,
          tetrahedra10_disoform, tetrahedra10_df_dr, tetrahedra10_df_ds,
          tetrahedra10_df_dt]
        ring

/-! Helper lemmas about the gauss-node loop of `solver_local_stiffness`. -/

lemma DELTA_comm (i j : Fin 3) : DELTA i j = DELTA j i := by
  unfold DELTA
  simp [eq_comm]

lemma ctensor_major (p : ℕ → ℚ) (g : Fin 3 → Fin 3 → ℚ) (i j k l : Fin 3) :
    solver_ctensor p g i k j l = solver_ctensor p g j l i k := by
  unfold solver_ctensor
  rw [DELTA_comm j i, DELTA_comm l k, DELTA_comm j k, DELTA_comm l i]
  ring

lemma contrib_core_symm (p : ℕ → ℚ) (g : Fin 3 → Fin 3 → ℚ)
    (x y : Fin 3 → ℚ) (i j : Fin 3) :
    (∑ k : Fin 3, ∑ l : Fin 3, x k * solver_ctensor p g i k j l * y l)
      = ∑ k : Fin 3, ∑ l : Fin 3, y k * solver_ctensor p g j k i l * x l := by
  rw [Finset.sum_comm]
  apply Finset.sum_congr rfl
  intro k _
  apply Finset.sum_congr rfl
  intro l _
  rw [ctensor_major p g i j l k]
  ring

lemma stiffContrib_symm (p : ℕ → ℚ) (g : Fin 3 → Fin 3 → ℚ)
    (grads : ShapeGradients) (w : ℚ) (I J : ℕ) :
    stiffContrib (solver_ctensor p g) grads w I J
      = stiffContrib (solver_ctensor p g) grads w J I := by
  unfold stiffContrib
  rw [contrib_core_symm p g (fun k => grads.grad k (I / 3))
    (fun l => grads.grad l (J / 3)) (fin3mod I) (fin3mod J)]

lemma stiffness_foldl_none (eps : ℚ) (S : FEASolver) (element : ℕ) :
    ∀ l : List ℕ, List.foldl (stiffnessStep eps S element) none l = none := by
  intro l
  induction l with
  | nil => rfl
  | cons g l ih => rw [List.foldl_cons]; exact ih

lemma stiffness_foldl_sum (eps : ℚ) (S : FEASolver) (element : ℕ) :
    ∀ (l : List ℕ) (acc stiff : ℕ → ℕ → ℚ),
      List.foldl (stiffnessStep eps S element) (some acc) l = some stiff →
      ∀ I J, stiff I J = acc I J
        + (l.map (fun g =>
            match solver_new_shape_gradients eps S element g with
            | none => 0
            | some grads =>
                stiffContrib (solver_ctens S) grads (S.gweight g) I J)).sum := by
  intro l
  induction l with
  | nil =>
    intro acc stiff h I J
    simp only [List.foldl_nil, Option.some.injEq] at h
    rw [← h]
    simp
  | cons g l ih =>
    intro acc stiff h I J
    rw [List.foldl_cons] at h
    cases hg : solver_new_shape_gradients eps S element g with
    | none =>
      rw [show stiffnessStep eps S element (some acc) g = none by
            unfold stiffnessStep
            rw [hg]
            rfl] at h
      rw [stiffness_foldl_none eps S element l] at h
      exact absurd h (by simp)
    | some grads =>
      rw [show stiffnessStep eps S element (some acc) g
            = some (fun I J => acc I J
                + stiffContrib (solver_ctens S) grads (S.gweight g) I J) by
            unfold stiffnessStep
            rw [hg]
            rfl] at h
      have := ih _ _ h I J
      rw [this]
      simp only [List.map_cons, List.sum_cons, hg]
      ring

lemma list_range_map_sum (f : ℕ → ℚ) (n : ℕ) :
    ((List.range n).map f).sum = ∑ g ∈ Finset.range n, f g := by
  induction n with
  | zero => simp
  | succ n ih =>
    rw [List.range_succ, Finset.sum_range_succ]
    simp [ih]

lemma run_eq_sum (eps : ℚ) (S : FEASolver) (element : ℕ)
    (stiff : ℕ → ℕ → ℚ)
    (h : solver_local_stiffness eps S element = some stiff) :
    ∀ I J, stiff I J = localStiffnessSum eps S element I J := by
  intro I J
  unfold solver_local_stiffness at h
  have := stiffness_foldl_sum eps S element (List.range S.gauss_nodes_count)
    (fun _ _ => 0) stiff h I J
  rw [this, list_range_map_sum]
  unfold localStiffnessSum
  simp

lemma stiffContrib_at (ct : Fin 3 → Fin 3 → Fin 3 → Fin 3 → ℚ)
    (grads : ShapeGradients) (w : ℚ) (a b : ℕ) (i j : Fin 3) :
    stiffContrib ct grads w (a * 3 + i.val) (b * 3 + j.val)
      = (∑ k : Fin 3, ∑ l : Fin 3,
            grads.grad k a * ct i k j l * grads.grad l b) * |grads.detJ| * w := by
  unfold stiffContrib
  have hi : i.val < 3 := i.isLt
  have hj : j.val < 3 := j.isLt
  have h1 : (a * 3 + i.val) / 3 = a := by omega
  have h2 : (b * 3 + j.val) / 3 = b := by omega
  have h3 : fin3mod (a * 3 + i.val) = i := by
    unfold fin3mod
    apply Fin.ext
    show (a * 3 + i.val) % 3 = i.val
    omega
  have h4 : fin3mod (b * 3 + j.val) = j := by
    unfold fin3mod
    apply Fin.ext
    show (b * 3 + j.val) % 3 = j.val
    omega
  rw [h1, h2, h3, h4]

/-- C1: whenever `solver_local_stiffness` completes with a matrix, that
matrix — which starts zero-initialized — holds at entry
`[a*dof+i][b*dof+j]` exactly the sum, over the quadrature points whose
Jacobi matrix was inverted successfully, of
`(sum over k,l of grad[k][a]*C[i][k][j][l]*grad[l][b]) * |detJ| * weight`
(quadrature points whose inversion failed contribute nothing). -/
theorem local_stiffness_accumulation (eps : ℚ) (S : FEASolver) (element : ℕ)
    (stiff : ℕ → ℕ → ℚ)
    (h : solver_local_stiffness eps S element = some stiff)
    (a b : ℕ) (i j : Fin 3) :
    stiff (a * 3 + i.val) (b * 3 + j.val)
      = ∑ g ∈ Finset.range S.gauss_nodes_count,
          match solver_new_shape_gradients eps S element g with
          | none => 0
          | some grads =>
              (∑ k : Fin 3, ∑ l : Fin 3,
                  grads.grad k a * solver_ctens S i k j l * grads.grad l b)
                * |grads.detJ| * S.gweight g := by
  rw [run_eq_sum eps S element stiff h]
  unfold localStiffnessSum
  apply Finset.sum_congr rfl
  intro g _
  cases hg : solver_new_shape_gradients eps S element g with
  | none => rfl
  | some grads =>
    simp only
    exact stiffContrib_at (solver_ctens S) grads (S.gweight g) a b i j

/-- C6: any local stiffness matrix `solver_local_stiffness` completes with is
symmetric, with no symmetrization step — the symmetry follows from the
summation shape together with the major symmetry of the constitutive
tensor. -/
theorem local_stiffness_symmetric (eps : ℚ) (S : FEASolver) (element : ℕ)
    (stiff : ℕ → ℕ → ℚ)
    (h : solver_local_stiffness eps S element = some stiff)
    (I J : ℕ) : stiff I J = stiff J I := by
  rw [run_eq_sum eps S element stiff h I J, run_eq_sum eps S element stiff h J I]
  unfold localStiffnessSum
  apply Finset.sum_congr rfl
  intro g _
  cases hg : solver_new_shape_gradients eps S element g with
  | none => rfl
  | some grads =>
    simp only
    exact stiffContrib_symm S.parameters (fun _ _ => 0) grads (S.gweight g) I J

/-! Concrete solver instances used as witnesses and counterexamples. -/

/-- A minimal solver instance whose Jacobi matrix is the identity: three
local nodes placed at the coordinate unit points with identity-like local
derivatives. -/
def Striv : FEASolver where
  nodes := fun n j => if n = j.val then 1 else 0
  elements := fun _ k => k
  nodes_per_element := 3
  gauss_nodes_count := 1
  parameters := fun _ => 1
  gweight := fun _ => 1
  dforms := fun _ i k => if i.val = k then 1 else 0

lemma Striv_jacobi : solver_jacobi Striv 0 0 = id3 := by
  funext i j
  unfold solver_jacobi solver_node_dof id3
  fin_cases i <;> fin_cases j <;>
    norm_num [Striv, Finset.sum_range_succ, Fin.ext_iff]

lemma Striv_flag : (inv3x3 0 (solver_jacobi Striv 0 0)).2.2 = true := by
  rw [Striv_jacobi, inv3x3_flag]
  have hd : det3x3 id3 = 1 := by norm_num [det3x3, id3, Fin.ext_iff]
  rw [hd]
  have he : EQL 0 (1 : ℚ) 0 = false := by norm_num [EQL]
  rw [he]
  rfl

/-- The shape-gradient record `solver_new_shape_gradients` produces on the
`Striv` instance. -/
def StrivGr : ShapeGradients where
  grad := fun i j =>
    ∑ k : Fin 3, (inv3x3 0 (solver_jacobi Striv 0 0)).1 i k * Striv.dforms 0 k j
  detJ := (inv3x3 0 (solver_jacobi Striv 0 0)).2.1

lemma Striv_sng_eq : solver_new_shape_gradients 0 Striv 0 0 = some StrivGr := by
  unfold solver_new_shape_gradients
  simp only [Striv_flag, if_true]
  rfl

/-- The local stiffness matrix accumulated on the `Striv` instance. -/
def StrivStiff : ℕ → ℕ → ℚ := fun I J =>
  0 + stiffContrib (solver_ctens Striv) StrivGr (Striv.gweight 0) I J

lemma Striv_run_eq : solver_local_stiffness 0 Striv 0 = some StrivStiff := by
  show List.foldl (stiffnessStep 0 Striv 0) (some fun _ _ => 0) (List.range 1)
    = some StrivStiff
  rw [show List.range 1 = [0] from rfl]
  show stiffnessStep 0 Striv 0 (some fun _ _ => 0) 0 = some StrivStiff
  unfold stiffnessStep
  rw [Striv_sng_eq]
  rfl

/-- Witness for C1: on `Striv` the assembler completes, and entry
`[0*dof+0][0*dof+1]` of its result is the quadrature sum stated by the
claim. -/
theorem local_stiffness_accumulation_witness :
    solver_local_stiffness 0 Striv 0 = some StrivStiff
    ∧ StrivStiff (0 * 3 + (0 : Fin 3).val) (0 * 3 + (1 : Fin 3).val)
        = ∑ g ∈ Finset.range Striv.gauss_nodes_count,
            match solver_new_shape_gradients 0 Striv 0 g with
            | none => 0
            | some grads =>
                (∑ k : Fin 3, ∑ l : Fin 3,
                    grads.grad k 0 * solver_ctens Striv 0 k 1 l * grads.grad l 0)
                  * |grads.detJ| * Striv.gweight g :=
  ⟨Striv_run_eq,
   local_stiffness_accumulation 0 Striv 0 StrivStiff Striv_run_eq 0 0 0 1⟩

/-- Witness for C6: on `Striv` the assembler completes and its result is
symmetric at a sample pair of indices. -/
theorem local_stiffness_symmetric_witness :
    solver_local_stiffness 0 Striv 0 = some StrivStiff
    ∧ StrivStiff 1 2 = StrivStiff 2 1 :=
  ⟨Striv_run_eq,
   local_stiffness_symmetric 0 Striv 0 StrivStiff Striv_run_eq 1 2⟩

/-- A degenerate solver instance: the genuine TETRAHEDRA10 element database
for the 5-point rule, but all ten nodes of the element coincide at the
origin, so the Jacobi matrix is the zero matrix at every quadrature point. -/
def Sdeg : FEASolver where
  nodes := fun _ _ => 0
  elements := fun _ k => k
  nodes_per_element := 10
  gauss_nodes_count := 5
  parameters := fun n => if n ≤ 1 then 100 else 0
  gweight := fun g => gauss_nodes5_tetr10 g 0
  dforms := tetra10_db_dforms gauss_nodes5_tetr10

lemma Sdeg_jacobi : solver_jacobi Sdeg 0 0 = (fun _ _ => 0) := by
  funext i j
  unfold solver_jacobi solver_node_dof
  simp [Sdeg]

lemma Sdeg_flag : (inv3x3 0 (solver_jacobi Sdeg 0 0)).2.2 = false := by
  rw [inv3x3_fail_iff, Sdeg_jacobi]
  norm_num [det3x3]

lemma Sdeg_sng : solver_new_shape_gradients 0 Sdeg 0 0 = none := by
  unfold solver_new_shape_gradients
  simp [Sdeg_flag]

/-- C2 (refuting evidence): on the degenerate element `Sdeg` the Jacobi
inversion fails at the first quadrature point and `solver_new_shape_gradients`
returns the NULL pointer; the gauss-node loop of `solver_local_stiffness`
nevertheless passes that NULL pointer to `solver_free_shape_gradients`, which
dereferences it, so the whole element run crashes (`none`) instead of
skipping the point and continuing. -/
theorem degenerate_point_crashes :
    solver_new_shape_gradients 0 Sdeg 0 0 = none
    ∧ solver_free_shape_gradients (solver_new_shape_gradients 0 Sdeg 0 0) = none
    ∧ solver_local_stiffness 0 Sdeg 0 = none := by
  refine ⟨Sdeg_sng, by rw [Sdeg_sng]; rfl, ?_⟩
  show List.foldl (stiffnessStep 0 Sdeg 0) (some fun _ _ => 0) (List.range 5)
    = none
  have h0 : stiffnessStep 0 Sdeg 0 (some fun _ _ => 0) 0 = none := by
    unfold stiffnessStep
    rw [Sdeg_sng]
    rfl
  rw [show List.range 5 = 0 :: [1, 2, 3, 4] from rfl, List.foldl_cons, h0,
    stiffness_foldl_none]

/-- C4: for a solver whose element database was filled from a quadrature
table by `solver_new_gauss_node` (so `dforms[i][k]` is the local derivative
of shape function `k` along axis `i` at that table row's `(r,s,t)`), whenever
`solver_new_shape_gradients` succeeds, the Jacobi matrix it built satisfies
`J[i][j] = sum over k of (local derivative of shape function k along axis i)
* (global coordinate j of the node referenced by local index k)`, the
returned `detJ` is the determinant of that Jacobi matrix as built before the
in-place inversion, and the returned gradients are
`grad[i][j] = sum over k of Jinv[i][k] * dforms[k][j]` for a genuine inverse
`Jinv` of the Jacobi matrix. -/
theorem shape_gradients_contract (eps : ℚ) (heps : 0 ≤ eps)
    (table : ℕ → ℕ → ℚ) (S : FEASolver)
    (hdb : S.dforms = tetra10_db_dforms table)
    (element gauss : ℕ) (grads : ShapeGradients)
    (h : solver_new_shape_gradients eps S element gauss = some grads) :
    (∀ i j : Fin 3, solver_jacobi S element gauss i j
        = ∑ k ∈ Finset.range S.nodes_per_element,
            tetrahedra10_disoform k i.val (table gauss 1) (table gauss 2)
                (table gauss 3)
              * S.nodes (S.elements element k) j)
    ∧ grads.detJ = det3x3 (solver_jacobi S element gauss)
    ∧ ∃ Jinv : Fin 3 → Fin 3 → ℚ,
        matMul3 (solver_jacobi S element gauss) Jinv = id3
        ∧ ∀ i : Fin 3, ∀ j : ℕ,
            grads.grad i j = ∑ k : Fin 3, Jinv i k * S.dforms gauss k j := by
  have hflag : (inv3x3 eps (solver_jacobi S element gauss)).2.2 = true := by
    cases hb : (inv3x3 eps (solver_jacobi S element gauss)).2.2 with
    | true => rfl
    | false =>
      exfalso
      simp only [solver_new_shape_gradients, hb] at h
      exact absurd h (by simp)
  have hrec : grads
      = ⟨fun i j => ∑ k : Fin 3,
            (inv3x3 eps (solver_jacobi S element gauss)).1 i k
              * S.dforms gauss k j,
         (inv3x3 eps (solver_jacobi S element gauss)).2.1⟩ := by
    simp only [solver_new_shape_gradients, hflag, if_true,
      Option.some.injEq] at h
    exact h.symm
  refine ⟨?_, ?_, ?_⟩
  · intro i j
    unfold solver_jacobi solver_node_dof
    rw [hdb]
    rfl
  · rw [hrec]
    exact inv3x3_det eps (solver_jacobi S element gauss)
  · refine ⟨(inv3x3 eps (solver_jacobi S element gauss)).1,
      inv3x3_success_inv eps heps (solver_jacobi S element gauss) hflag, ?_⟩
    intro i j
    rw [hrec]

/-- The ten standard node positions of the reference 10-node tetrahedron:
four corners and six edge midpoints, ordered by the Dhondt shape set. -/
def refNodes : ℕ → Fin 3 → ℚ := fun n =>
  match n with
  | 0 => ![0, 0, 0]
  | 1 => ![1, 0, 0]
  | 2 => ![0, 1, 0]
  | 3 => ![0, 0, 1]
  | 4 => ![1/2, 0, 0]
  | 5 => ![1/2, 1/2, 0]
  | 6 => ![0, 1/2, 0]
  | 7 => ![0, 0, 1/2]
  | 8 => ![1/2, 0, 1/2]
  | 9 => ![0, 1/2, 1/2]
  | _ => ![0, 0, 0]

/-- A solver session holding one reference tetrahedron and the TETRAHEDRA10
element database for the 5-point quadrature rule. -/
def Sref : FEASolver where
  nodes := refNodes
  elements := fun _ k => k
  nodes_per_element := 10
  gauss_nodes_count := 5
  parameters := fun n => if n ≤ 1 then 100 else 0
  gweight := fun g => gauss_nodes5_tetr10 g 0
  dforms := tetra10_db_dforms gauss_nodes5_tetr10

lemma Sref_jacobi : solver_jacobi Sref 0 0 = id3 := by
  funext i j
  unfold solver_jacobi solver_node_dof id3
  fin_cases i <;> fin_cases j <;>
    norm_num [Sref, refNodes, tetra10_db_dforms, gauss_nodes5_tetr10,
      tetrahedra10_disoform, tetrahedra10_df_dr, tetrahedra10_df_ds,
      tetrahedra10_df_dt, Finset.sum_range_succ, Fin.ext_iff]

lemma Sref_flag : (inv3x3 0 (solver_jacobi Sref 0 0)).2.2 = true := by
  rw [Sref_jacobi, inv3x3_flag]
  have hd : det3x3 id3 = 1 := by norm_num [det3x3, id3, Fin.ext_iff]
  rw [hd]
  have he : EQL 0 (1 : ℚ) 0 = false := by norm_num [EQL]
  rw [he]
  rfl

/-- The shape-gradient record produced at gauss point 0 of the reference
tetrahedron. -/
def SrefGr : ShapeGradients where
  grad := fun i j =>
    ∑ k : Fin 3, (inv3x3 0 (solver_jacobi Sref 0 0)).1 i k * Sref.dforms 0 k j
  detJ := (inv3x3 0 (solver_jacobi Sref 0 0)).2.1

lemma Sref_sng_eq : solver_new_shape_gradients 0 Sref 0 0 = some SrefGr := by
  unfold solver_new_shape_gradients
  simp only [Sref_flag, if_true]
  rfl

/-- Witness for C4 on the reference tetrahedron at gauss point 0 of the
5-point rule. -/
theorem shape_gradients_contract_witness :
    (0 : ℚ) ≤ 0
    ∧ Sref.dforms = tetra10_db_dforms gauss_nodes5_tetr10
    ∧ solver_new_shape_gradients 0 Sref 0 0 = some SrefGr
    ∧ ((∀ i j : Fin 3, solver_jacobi Sref 0 0 i j
          = ∑ k ∈ Finset.range Sref.nodes_per_element,
              tetrahedra10_disoform k i.val (gauss_nodes5_tetr10 0 1)
                  (gauss_nodes5_tetr10 0 2) (gauss_nodes5_tetr10 0 3)
                * Sref.nodes (Sref.elements 0 k) j)
        ∧ SrefGr.detJ = det3x3 (solver_jacobi Sref 0 0)
        ∧ ∃ Jinv : Fin 3 → Fin 3 → ℚ,
            matMul3 (solver_jacobi Sref 0 0) Jinv = id3
            ∧ ∀ i : Fin 3, ∀ j : ℕ,
                SrefGr.grad i j = ∑ k : Fin 3, Jinv i k * Sref.dforms 0 k j) :=
  ⟨le_refl 0, rfl, Sref_sng_eq,
   shape_gradients_contract 0 (le_refl 0) gauss_nodes5_tetr10 Sref rfl 0 0
     SrefGr Sref_sng_eq⟩

/-- The shape functions of `tetrahedra10_isoform` transcribed as genuine
multivariate polynomials in the three reference coordinates (variable 0 is
`r`, 1 is `s`, 2 is `t`), so that the exact partial derivative is available
as `MvPolynomial.pderiv`. -/
noncomputable def tetrahedra10_isoformP (i : ℕ) : MvPolynomial (Fin 3) ℚ :=
  match i with
  | 0 => (MvPolynomial.C 2
            * (1 - MvPolynomial.X 0 - MvPolynomial.X 1 - MvPolynomial.X 2) - 1)
          * (1 - MvPolynomial.X 0 - MvPolynomial.X 1 - MvPolynomial.X 2)
  | 1 => (MvPolynomial.C 2 * MvPolynomial.X 0 - 1) * MvPolynomial.X 0
  | 2 => (MvPolynomial.C 2 * MvPolynomial.X 1 - 1) * MvPolynomial.X 1
  | 3 => (MvPolynomial.C 2 * MvPolynomial.X 2 - 1) * MvPolynomial.X 2
  | 4 => MvPolynomial.C 4 * MvPolynomial.X 0
          * (1 - MvPolynomial.X 0 - MvPolynomial.X 1 - MvPolynomial.X 2)
  | 5 => MvPolynomial.C 4 * MvPolynomial.X 0 * MvPolynomial.X 1
  | 6 => MvPolynomial.C 4 * MvPolynomial.X 1
          * (1 - MvPolynomial.X 0 - MvPolynomial.X 1 - MvPolynomial.X 2)
  | 7 => MvPolynomial.C 4 * MvPolynomial.X 2
          * (1 - MvPolynomial.X 0 - MvPolynomial.X 1 - MvPolynomial.X 2)
  | 8 => MvPolynomial.C 4 * MvPolynomial.X 0 * MvPolynomial.X 2
  | 9 => MvPolynomial.C 4 * MvPolynomial.X 1 * MvPolynomial.X 2
  | _ => 0

/-- C7: for every node index below 10 and every axis, the polynomial
transcription of `tetrahedra10_isoform` evaluates to the code's shape
function at every rational point, and its exact partial derivative
(`MvPolynomial.pderiv`) along that axis evaluates everywhere to the code's
`tetrahedra10_disoform` — i.e. the derivative table is exactly the partial
derivative of the shape-function polynomial. -/
theorem disoform_is_exact_pderiv :
    ∀ i : Fin 10, ∀ axis : Fin 3, ∀ r s t : ℚ,
      MvPolynomial.eval ![r, s, t] (tetrahedra10_isoformP i.val)
          = tetrahedra10_isoform i.val r s t
      ∧ MvPolynomial.eval ![r, s, t]
            (MvPolynomial.pderiv axis (tetrahedra10_isoformP i.val))
          = tetrahedra10_disoform i.val axis.val r s t := by
  intro i axis r s t
  fin_cases i <;> fin_cases axis <;>
    refine ⟨?_, ?_⟩ <;>
      · simp +decide [tetrahedra10_isoformP, tetrahedra10_isoform,
          tetrahedra10_disoform, tetrahedra10_df_dr, tetrahedra10_df_ds,
          tetrahedra10_df_dt, MvPolynomial.pderiv_mul, MvPolynomial.pderiv_one,
          MvPolynomial.pderiv_C, MvPolynomial.pderiv_X_self,
          MvPolynomial.pderiv_X_of_ne, map_sub, map_add, map_one, map_mul,
          MvPolynomial.eval_C, MvPolynomial.eval_X, Matrix.cons_val_zero,
          Matrix.cons_val_one, Matrix.head_cons, Matrix.cons_val_two,
          Matrix.tail_cons]
        try ring

end FeaSolver
